import Mathlib

/-!
Verification of `viswsl/modules/textual_stream.py` (class
`TransformerTextualStream`) against its natural-language specification.

The Python source is shallowly embedded below.  Torch parameter tensors
are modelled as rational matrices (`List (List ℚ)`); the in-place random
fill `Tensor.normal_` is modelled by an explicit sampler `Nat → Nat → ℚ`
giving the draw at each (row, column) position, so every theorem below is
quantified over (or instantiated at) arbitrary draw outcomes.
-/

/-- A stream of random draws: `s i j` is the value `normal_` writes at
row `i`, column `j` of the tensor being filled. -/
def Sampler : Type := Nat → Nat → ℚ

/-- The constant-one sampler, used to instantiate theorems at a concrete
draw outcome. -/
def sOne : Sampler := fun _ _ => (1 : ℚ)

/-- Fill one row with draws `f j`, `f (j+1)`, ..., keeping its length.
Models `Tensor.normal_` acting on one row. -/
def fillRow (f : Nat → ℚ) : Nat → List ℚ → List ℚ
  | _, [] => []
  | j, _ :: xs => f j :: fillRow f (j + 1) xs

/-- Fill a matrix row by row with draws from the sampler, keeping its
shape.  Models `Tensor.normal_(mean=0.0, std=0.02)`: every entry is
overwritten by a fresh draw. -/
def fillRows (s : Sampler) : Nat → List (List ℚ) → List (List ℚ)
  | _, [] => []
  | i, r :: rs => fillRow (s i) 0 r :: fillRows s (i + 1) rs

/-- `w.data.normal_(mean=0.0, std=0.02)` on a whole weight matrix. -/
def normalFill (s : Sampler) (w : List (List ℚ)) : List (List ℚ) :=
  fillRows s 0 w

/-- `w.data[p].zero_()`: overwrite row `p` with zeros, in place. -/
def zeroRow (p : Nat) (w : List (List ℚ)) : List (List ℚ) :=
  w.set p ((w.getD p []).map (fun _ => (0 : ℚ)))

/-- The closed universe of torch module kinds `init_weights` can meet,
with the parameter tensors each kind owns.  `linear` carries weight and
bias; `multiheadAttention` carries the input/output projection weights
and biases; `embedding` carries its table and optional padding index;
`layerNorm`, `dropout` and `other` stand for every unrecognized kind. -/
inductive TorchModule where
  | linear (weight : List (List ℚ)) (bias : List ℚ)
  | multiheadAttention (in_proj_weight : List (List ℚ)) (in_proj_bias : List ℚ)
      (out_proj_weight : List (List ℚ)) (out_proj_bias : List ℚ)
  | embedding (weight : List (List ℚ)) (padding_idx : Option Nat)
  | layerNorm (weight : List ℚ) (bias : List ℚ)
  | dropout
  | other (params : List (List ℚ))
deriving DecidableEq

/-- `TransformerTextualStream.init_weights` (source lines 64-76), the
BERT-style visitor: `nn.Linear` weights are normal-filled (the bias is
not touched by the code); `nn.MultiheadAttention` in/out projection
weights are normal-filled; `nn.Embedding` weights are normal-filled and
then, when a padding index is set, that row is zeroed.  Every other
module kind falls through the `if/elif` chain unchanged. -/
def init_weights (s : Sampler) : TorchModule → TorchModule
  | .linear weight bias => .linear (normalFill s weight) bias
  | .multiheadAttention ipw ipb opw opb =>
      .multiheadAttention (normalFill s ipw) ipb (normalFill s opw) opb
  | .embedding weight padding_idx =>
      match padding_idx with
      | some p => .embedding (zeroRow p (normalFill s weight)) (some p)
      | none => .embedding (normalFill s weight) none
  | m => m

/-- The constructor arguments of `TransformerTextualStream.__init__`
(source lines 14-26), the spec's StreamConfig. -/
structure StreamConfig where
  vocab_size : Nat
  hidden_size : Nat
  feedforward_size : Nat
  attention_heads : Nat
  num_layers : Nat
  dropout : ℚ
  norm_type : String
  activation : String
  is_bidirectional : Bool
  padding_idx : Nat
deriving DecidableEq

/-- Modelled from the spec: the external Embedding Provider
(`viswsl.modules.embedding.WordAndPositionalEmbedding`, not under
`src/`).  Per the spec it is sized to (vocabulary size, hidden width)
and "consumes a padding-index convention"; its padding index defaults to
the spec's default padding index 0 when the caller does not supply one.
Its word table is the one `nn.Embedding` submodule the Controller's
`self.apply(self.init_weights)` visits. -/
structure WordAndPositionalEmbedding where
  vocab_size : Nat
  hidden_size : Nat
  dropout : ℚ
  padding_idx : Nat
  words : TorchModule
deriving DecidableEq

/-- Modelled from the spec: the provider's default padding index (the
spec's StreamConfig default, 0), used because the source call site
passes no padding-index argument. -/
def wapeDefaultPaddingIdx : Nat := 0

/-- Modelled from the spec: building the Embedding Provider with exactly
the three arguments the source call site passes (source lines 35-37):
vocabulary size, hidden width, dropout.  The pre-initialization table
contents are immaterial (the initialization policy overwrites them), so
the table starts as zeros of shape (vocab, hidden). -/
def wordAndPositionalEmbedding (vocab hidden : Nat) (dropout : ℚ) :
    WordAndPositionalEmbedding :=
  { vocab_size := vocab
    hidden_size := hidden
    dropout := dropout
    padding_idx := wapeDefaultPaddingIdx
    words := TorchModule.embedding
      (List.replicate vocab (List.replicate hidden (0 : ℚ)))
      (some wapeDefaultPaddingIdx) }

/-- The two encoder-layer classes the constructor can select between
(source lines 39-43). -/
inductive LayerClass where
  | transformerEncoderLayer
  | preNormTransformerEncoderLayer
deriving DecidableEq

/-- The three encoder classes imported by the source (lines 5-10).  Note
the source's own spelling `BidirectionalTansformerEncoder`. -/
inductive EncoderClassT where
  | bidirectionalTansformerEncoder
  | forwardTransformerEncoder
  | backwardTransformerEncoder
deriving DecidableEq

/-- The block prototype: the arguments the constructor passes to the
selected encoder-layer class (source lines 44-50). -/
structure LayerProto where
  layerClass : LayerClass
  d_model : Nat
  nhead : Nat
  dim_feedforward : Nat
  dropout : ℚ
  activation : String
deriving DecidableEq

/-- The assembled encoder stack: the chosen directional class, the block
prototype, and the depth passed to it (source line 57). -/
structure EncoderStack where
  cls : EncoderClassT
  layer : LayerProto
  num_layers : Nat
deriving DecidableEq

/-- The configuration errors this development distinguishes.
`configurationError` is the spec's ConfigurationError; `shapeError` is
the spec's ShapeError; `providerIndexError` models a failure raised
inside the external embedding provider on an out-of-range token id. -/
inductive StreamError where
  | configurationError
  | shapeError
  | providerIndexError
deriving DecidableEq

/-- Modelled from the spec: the Directional Encoder Assembler
(`viswsl.modules.transformer`, not under `src/`).  Per spec section 4.2
it builds a stack of `depth` blocks from the prototype and "Depth >= 1
is required; depth = 0 fails with a ConfigurationError at
construction". -/
def mkEncoderStack (cls : EncoderClassT) (layer : LayerProto)
    (num_layers : Nat) : Except StreamError EncoderStack :=
  if num_layers < 1 then .error .configurationError
  else .ok { cls := cls, layer := layer, num_layers := num_layers }

/-- The state `TransformerTextualStream.__init__` stores on `self`
(source lines 28-57). -/
structure TransformerTextualStream where
  vocab_size : Nat
  hidden_size : Nat
  feedforward_size : Nat
  attention_heads : Nat
  num_layers : Nat
  padding_idx : Nat
  embedding : WordAndPositionalEmbedding
  encoder : EncoderStack
deriving DecidableEq

/-- The `textual_feature_size` property (source lines 60-62). -/
def TransformerTextualStream.textual_feature_size
    (m : TransformerTextualStream) : Nat :=
  m.hidden_size

/-- `self.apply(self.init_weights)` (source line 58) restricted to the
modelled submodule: the provider's word table.  The layer internals are
external torch modules whose categories are covered by `init_weights`
directly. -/
def applyInitWeights (s : Sampler) (w : WordAndPositionalEmbedding) :
    WordAndPositionalEmbedding :=
  { w with words := init_weights s w.words }

/-- `TransformerTextualStream.__init__` (source lines 14-58).  The
source body contains no `raise` statement and no validation branch: it
stores the config, builds the embedding provider (without passing the
configured padding index), selects the layer class by
`norm_type == "post"` (anything else selects pre-norm), selects the
encoder class by the boolean `is_bidirectional`, hands the prototype and
`num_layers` to the assembler, and runs the initialization visitor.  The
only failure channel is the spec-modelled assembler's depth check. -/
def mkTransformerTextualStream (s : Sampler) (cfg : StreamConfig) :
    Except StreamError TransformerTextualStream :=
  let embedding := wordAndPositionalEmbedding cfg.vocab_size
    cfg.hidden_size cfg.dropout
  let layerCls := if cfg.norm_type == "post" then
    LayerClass.transformerEncoderLayer
  else
    LayerClass.preNormTransformerEncoderLayer
  let proto : LayerProto :=
    { layerClass := layerCls
      d_model := cfg.hidden_size
      nhead := cfg.attention_heads
      dim_feedforward := cfg.feedforward_size
      dropout := cfg.dropout
      activation := cfg.activation }
  let encCls := if cfg.is_bidirectional then
    EncoderClassT.bidirectionalTansformerEncoder
  else
    EncoderClassT.forwardTransformerEncoder
  match mkEncoderStack encCls proto cfg.num_layers with
  | .error e => .error e
  | .ok encoder =>
      .ok { vocab_size := cfg.vocab_size
            hidden_size := cfg.hidden_size
            feedforward_size := cfg.feedforward_size
            attention_heads := cfg.attention_heads
            num_layers := cfg.num_layers
            padding_idx := cfg.padding_idx
            embedding := applyInitWeights s embedding
            encoder := encoder }

/-- Projection: the encoder class of a successfully built stream. -/
def streamEncoderCls (r : Except StreamError TransformerTextualStream) :
    Option EncoderClassT :=
  match r with
  | .ok st => some st.encoder.cls
  | .error _ => none

/-- Projection: the layer class of a successfully built stream. -/
def streamLayerCls (r : Except StreamError TransformerTextualStream) :
    Option LayerClass :=
  match r with
  | .ok st => some st.encoder.layer.layerClass
  | .error _ => none

/-- Projection: the embedding provider of a successfully built stream. -/
def streamEmbedding (r : Except StreamError TransformerTextualStream) :
    Option WordAndPositionalEmbedding :=
  match r with
  | .ok st => some st.embedding
  | .error _ => none

/-- Projection: the word-table weights of a successfully built stream
(empty on failure). -/
def streamWordsWeight (r : Except StreamError TransformerTextualStream) :
    List (List ℚ) :=
  match r with
  | .ok st =>
      match st.embedding.words with
      | .embedding w _ => w
      | _ => []
  | .error _ => []

/-- Whether an `Except` result is a success. -/
def isOkE (r : Except StreamError TransformerTextualStream) : Bool :=
  match r with
  | .ok _ => true
  | .error _ => false

example :
    isOkE (mkTransformerTextualStream sOne
      { vocab_size := 4, hidden_size := 2, feedforward_size := 4,
        attention_heads := 1, num_layers := 1, dropout := 0,
        norm_type := "pre", activation := "gelu",
        is_bidirectional := true, padding_idx := 3 }) = true := by
  decide

example :
    streamWordsWeight (mkTransformerTextualStream sOne
      { vocab_size := 4, hidden_size := 2, feedforward_size := 4,
        attention_heads := 1, num_layers := 1, dropout := 0,
        norm_type := "pre", activation := "gelu",
        is_bidirectional := true, padding_idx := 3 }) =
    [[0, 0], [1, 1], [1, 1], [1, 1]] := by
  decide

/-- A batch-major 3-d feature tensor: batch of (length x hidden) rows. -/
abbrev Tensor3 := List (List (List ℚ))

/-- `caption_tokens == self.padding_idx` (source line 82): the fresh
elementwise boolean padding mask, True at padding positions. -/
def maskOf (padding_idx : Nat) (caption_tokens : List (List Nat)) :
    List (List Bool) :=
  caption_tokens.map (fun row => row.map (fun t => t == padding_idx))

/-- `Tensor.transpose(0, 1)` on the leading two dimensions (source lines
91 and 98): swap the outer two levels of nesting.  On a rectangular
matrix of rows this is the usual matrix transpose. -/
def transpose2 [Inhabited α] (m : List (List α)) : List (List α) :=
  match m with
  | [] => []
  | r :: _ => (List.range r.length).map
      (fun j => m.map (fun row => row.getD j default))

/-- Modelled from the spec: one lookup in the external Embedding
Provider's table; a token id outside the table raises inside the
provider (`providerIndexError`), the spec's section-6 contract covering
only in-range ids. -/
def lookupRow (table : List (List ℚ)) (id : Nat) :
    Except StreamError (List ℚ) :=
  match table.get? id with
  | some v => .ok v
  | none => .error .providerIndexError

/-- Modelled from the spec: embed one token sequence through the
provider's table. -/
def embedSeq (table : List (List ℚ)) : List Nat →
    Except StreamError (List (List ℚ))
  | [] => .ok []
  | t :: ts =>
    match lookupRow table t with
    | .error e => .error e
    | .ok v =>
      match embedSeq table ts with
      | .error e => .error e
      | .ok vs => .ok (v :: vs)

/-- Modelled from the spec: `self.embedding(caption_tokens)` — the
external Embedding Provider's batch lookup, shape
(batch, length, hidden width) on success. -/
def embedBatch (table : List (List ℚ)) : List (List Nat) →
    Except StreamError Tensor3
  | [] => .ok []
  | r :: rs =>
    match embedSeq table r with
    | .error e => .error e
    | .ok m =>
      match embedBatch table rs with
      | .error e => .error e
      | .ok ms => .ok (m :: ms)

/-- `TransformerTextualStream.forward` (source lines 78-100), with the
two external collaborators — the embedding call and the assembled
encoder — passed in as functions.  The body mirrors the source line by
line: derive the fresh padding mask, obtain embeddings, transpose to
sequence-major, run the encoder with `src_key_padding_mask` set to that
same mask, transpose back.  The source contains no validation and no
`raise`; the only failure channel is the embedding call itself. -/
def forward (embed : List (List Nat) → Except StreamError Tensor3)
    (encoder : Tensor3 → List (List Bool) → Tensor3)
    (padding_idx : Nat) (caption_tokens : List (List Nat)) :
    Except StreamError Tensor3 :=
  let caption_mask := maskOf padding_idx caption_tokens
  match embed caption_tokens with
  | .error e => .error e
  | .ok token_embeddings =>
    let token_embeddings := transpose2 token_embeddings
    let textual_features := encoder token_embeddings caption_mask
    .ok (transpose2 textual_features)

/-- `forward` instrumented with the caller's token buffer: the second
component is the state of `caption_tokens` after the call.  Every torch
operation the source applies to the input (`==`, the embedding call,
`transpose`) is out-of-place (no trailing-underscore op touches
`caption_tokens`), so the buffer is returned as the data flow leaves it:
untouched. -/
def forwardTracked (embed : List (List Nat) → Except StreamError Tensor3)
    (encoder : Tensor3 → List (List Bool) → Tensor3)
    (padding_idx : Nat) (caption_tokens : List (List Nat)) :
    Except StreamError Tensor3 × List (List Nat) :=
  (forward embed encoder padding_idx caption_tokens, caption_tokens)

/-- The identity encoder, a shape-preserving Block Primitive instance
used to instantiate theorems. -/
def encId : Tensor3 → List (List Bool) → Tensor3 :=
  fun x _ => x

example : forward (embedBatch [[1, 2], [3, 4]]) encId 0 [[0, 1], [1, 0]] =
    .ok [[[1, 2], [3, 4]], [[3, 4], [1, 2]]] := rfl

example : forward (embedBatch [[1, 2]]) encId 0 [[0, 5]] =
    .error .providerIndexError := rfl

/-- Shape predicate for a batch-major or sequence-major 3-d tensor:
outer length `A`, middle length `C`, inner vectors of length `H`. -/
def hasShape3 (t : Tensor3) (A C H : Nat) : Prop :=
  t.length = A ∧ ∀ m ∈ t, m.length = C ∧ ∀ v ∈ m, v.length = H

instance (t : Tensor3) (A C H : Nat) : Decidable (hasShape3 t A C H) := by
  unfold hasShape3
  infer_instance

lemma getD_map_eq (f : α → β) (d : α) :
    ∀ (l : List α) (i : Nat), (l.map f).getD i (f d) = f (l.getD i d) := by
  intro l
  induction l with
  | nil => intro i; cases i <;> simp [List.getD]
  | cons x xs ih =>
    intro i
    cases i with
    | zero => simp [List.getD]
    | succ n => simp only [List.map_cons, List.getD_cons_succ]; exact ih n

lemma map_const_zero (l : List ℚ) :
    l.map (fun _ => (0 : ℚ)) = List.replicate l.length 0 := by
  induction l with
  | nil => rfl
  | cons x xs ih => simp [List.replicate, ih]

lemma length_fillRow (f : Nat → ℚ) :
    ∀ (j : Nat) (l : List ℚ), (fillRow f j l).length = l.length := by
  intro j l
  induction l generalizing j with
  | nil => rfl
  | cons x xs ih => simp [fillRow, ih]

lemma length_fillRows (s : Sampler) :
    ∀ (i : Nat) (w : List (List ℚ)), (fillRows s i w).length = w.length := by
  intro i w
  induction w generalizing i with
  | nil => rfl
  | cons r rs ih => simp [fillRows, ih]

lemma getD_mem_of_lt (d : α) :
    ∀ (l : List α) (j : Nat), j < l.length → l.getD j d ∈ l := by
  intro l
  induction l with
  | nil => intro j h; simp at h
  | cons x xs ih =>
    intro j h
    cases j with
    | zero => simp [List.getD]
    | succ n =>
      simp only [List.getD_cons_succ]
      exact List.mem_cons_of_mem _ (ih n (by simpa using h))

/-- Shape of the transpose: a nonempty rectangular `A x C` nesting
transposes to a `C x A` nesting whose entries all come from rows of the
input. -/
lemma transpose2_shape [Inhabited α] (m : List (List α)) (A C : Nat)
    (hlen : m.length = A) (hA : 0 < A) (hrow : ∀ r ∈ m, r.length = C) :
    (transpose2 m).length = C ∧
      (∀ r ∈ transpose2 m, r.length = A) ∧
      (∀ r ∈ transpose2 m, ∀ v ∈ r, ∃ row ∈ m, v ∈ row) := by
  match m, hA, hlen with
  | r₀ :: rest, _, hlen =>
    have hr₀ : r₀.length = C := hrow r₀ (List.mem_cons_self _ _)
    refine ⟨?_, ?_, ?_⟩
    · simp [transpose2, hr₀]
    · intro r hr
      simp only [transpose2, List.mem_map] at hr
      obtain ⟨j, _, rfl⟩ := hr
      simpa using hlen
    · intro r hr v hv
      simp only [transpose2, List.mem_map] at hr
      obtain ⟨j, hj, rfl⟩ := hr
      simp only [List.mem_range, hr₀] at hj
      simp only [List.mem_map] at hv
      obtain ⟨row, hrow', rfl⟩ := hv
      exact ⟨row, hrow', getD_mem_of_lt _ row j (by rw [hrow row hrow']; exact hj)⟩

/-- A successful `embedSeq` has one vector per token, each a row of the
table. -/
lemma embedSeq_ok_shape (table : List (List ℚ)) :
    ∀ (row : List Nat) (e : List (List ℚ)),
      embedSeq table row = .ok e →
      e.length = row.length ∧ ∀ v ∈ e, v ∈ table := by
  intro row
  induction row with
  | nil => intro e he; cases he; simp
  | cons t ts ih =>
    intro e he
    simp only [embedSeq] at he
    cases hl : lookupRow table t with
    | error err => rw [hl] at he; cases he
    | ok v =>
      rw [hl] at he
      cases hs : embedSeq table ts with
      | error err => rw [hs] at he; cases he
      | ok vs =>
        rw [hs] at he
        cases he
        have hv : v ∈ table := by
          simp only [lookupRow] at hl
          cases hg : table.get? t with
          | none => rw [hg] at hl; cases hl
          | some w =>
            rw [hg] at hl
            cases hl
            exact List.get?_mem hg
        obtain ⟨hlen, hmem⟩ := ih vs hs
        constructor
        · simp [hlen]
        · intro u hu
          rcases List.mem_cons.mp hu with h | h
          · exact h ▸ hv
          · exact hmem u h

/-- A successful `embedBatch` has one row of vectors per token sequence,
each vector a row of the table. -/
lemma embedBatch_ok_shape (table : List (List ℚ)) :
    ∀ (tokens : List (List Nat)) (e : Tensor3),
      embedBatch table tokens = .ok e →
      e.length = tokens.length ∧
        ∀ i, (e.getD i []).length = (tokens.getD i []).length ∧
          ∀ v ∈ e.getD i [], v ∈ table := by
  intro tokens
  induction tokens with
  | nil =>
    intro e he; cases he
    refine ⟨rfl, ?_⟩
    intro i; simp [List.getD]
  | cons r rs ih =>
    intro e he
    simp only [embedBatch] at he
    cases hs : embedSeq table r with
    | error err => rw [hs] at he; cases he
    | ok m =>
      rw [hs] at he
      cases hb : embedBatch table rs with
      | error err => rw [hb] at he; cases he
      | ok ms =>
        rw [hb] at he
        cases he
        obtain ⟨hm, hmem⟩ := embedSeq_ok_shape table r m hs
        obtain ⟨hlen, hrest⟩ := ih ms hb
        refine ⟨by simp [hlen], ?_⟩
        intro i
        cases i with
        | zero => exact ⟨by simpa using hm, by simpa using hmem⟩
        | succ n => simpa [List.getD] using hrest n

/-- When every token id is in range, `embedSeq` succeeds. -/
lemma embedSeq_ok_of_in_range (table : List (List ℚ)) :
    ∀ (row : List Nat), (∀ id ∈ row, id < table.length) →
      ∃ e, embedSeq table row = .ok e := by
  intro row
  induction row with
  | nil => intro _; exact ⟨[], rfl⟩
  | cons t ts ih =>
    intro h
    obtain ⟨e, he⟩ := ih (fun id hid => h id (List.mem_cons_of_mem _ hid))
    have ht : t < table.length := h t (List.mem_cons_self _ _)
    refine ⟨table.get ⟨t, ht⟩ :: e, ?_⟩
    simp [embedSeq, lookupRow, List.getElem?_eq_getElem ht, he]

/-- When every token id is in range, `embedBatch` succeeds. -/
lemma embedBatch_ok_of_in_range (table : List (List ℚ)) :
    ∀ (tokens : List (List Nat)),
      (∀ r ∈ tokens, ∀ id ∈ r, id < table.length) →
      ∃ e, embedBatch table tokens = .ok e := by
  intro tokens
  induction tokens with
  | nil => intro _; exact ⟨[], rfl⟩
  | cons r rs ih =>
    intro h
    obtain ⟨m, hm⟩ := embedSeq_ok_of_in_range table r
      (h r (List.mem_cons_self _ _))
    obtain ⟨ms, hms⟩ := ih (fun r' hr' => h r' (List.mem_cons_of_mem _ hr'))
    exact ⟨m :: ms, by simp [embedBatch, hm, hms]⟩

/-- `embedSeq` never produces a `shapeError` or `configurationError`:
its only failure is the provider's index error. -/
lemma embedSeq_error_eq (table : List (List ℚ)) :
    ∀ (row : List Nat) (e : StreamError),
      embedSeq table row = .error e → e = .providerIndexError := by
  intro row
  induction row with
  | nil => intro e he; cases he
  | cons t ts ih =>
    intro e he
    simp only [embedSeq] at he
    cases hl : lookupRow table t with
    | error err =>
      rw [hl] at he
      cases he
      simp only [lookupRow] at hl
      cases hg : table.get? t with
      | none => rw [hg] at hl; cases hl; rfl
      | some w => rw [hg] at hl; cases hl
    | ok v =>
      rw [hl] at he
      cases hs : embedSeq table ts with
      | error err => rw [hs] at he; cases he; exact ih _ hs
      | ok vs => rw [hs] at he; cases he

/-- `embedBatch` never produces a `shapeError` or `configurationError`. -/
lemma embedBatch_error_eq (table : List (List ℚ)) :
    ∀ (tokens : List (List Nat)) (e : StreamError),
      embedBatch table tokens = .error e → e = .providerIndexError := by
  intro tokens
  induction tokens with
  | nil => intro e he; cases he
  | cons r rs ih =>
    intro e he
    simp only [embedBatch] at he
    cases hs : embedSeq table r with
    | error err => rw [hs] at he; cases he; exact embedSeq_error_eq table r _ hs
    | ok m =>
      rw [hs] at he
      cases hb : embedBatch table rs with
      | error err => rw [hb] at he; cases he; exact ih _ hb
      | ok ms => rw [hb] at he; cases he

/-- An out-of-range id anywhere in the sequence makes `embedSeq` fail
with the provider's index error. -/
lemma embedSeq_error_of_out_of_range (table : List (List ℚ)) :
    ∀ (row : List Nat), (∃ id ∈ row, table.length ≤ id) →
      embedSeq table row = .error .providerIndexError := by
  intro row
  induction row with
  | nil => rintro ⟨id, hid, _⟩; simp at hid
  | cons t ts ih =>
    rintro ⟨id, hid, hge⟩
    rcases List.mem_cons.mp hid with rfl | hmem
    · have hnone : table[id]? = none := List.getElem?_eq_none hge
      simp [embedSeq, lookupRow, hnone]
    · cases hl : lookupRow table t with
      | error err =>
        have : err = .providerIndexError := by
          simp only [lookupRow] at hl
          cases hg : table.get? t with
          | none => rw [hg] at hl; cases hl; rfl
          | some w => rw [hg] at hl; cases hl
        simp [embedSeq, hl, this]
      | ok v => simp [embedSeq, hl, ih ⟨id, hmem, hge⟩]

/-- An out-of-range id anywhere in the batch makes `embedBatch` fail
with the provider's index error. -/
lemma embedBatch_error_of_out_of_range (table : List (List ℚ)) :
    ∀ (tokens : List (List Nat)),
      (∃ r ∈ tokens, ∃ id ∈ r, table.length ≤ id) →
      embedBatch table tokens = .error .providerIndexError := by
  intro tokens
  induction tokens with
  | nil => rintro ⟨r, hr, _⟩; simp at hr
  | cons r rs ih =>
    rintro ⟨r', hr', hbad⟩
    rcases List.mem_cons.mp hr' with rfl | hmem
    · simp [embedBatch, embedSeq_error_of_out_of_range table r' hbad]
    · cases hs : embedSeq table r with
      | error err =>
        simp [embedBatch, hs, embedSeq_error_eq table r err hs]
      | ok m => simp [embedBatch, hs, ih ⟨r', hmem, hbad⟩]

/-- Unfolding of the constructor: the depth check is the only failure
channel, and on success every stored field is determined by the
config. -/
lemma mk_eq (s : Sampler) (cfg : StreamConfig) :
    mkTransformerTextualStream s cfg =
      if cfg.num_layers < 1 then .error .configurationError
      else .ok
        { vocab_size := cfg.vocab_size
          hidden_size := cfg.hidden_size
          feedforward_size := cfg.feedforward_size
          attention_heads := cfg.attention_heads
          num_layers := cfg.num_layers
          padding_idx := cfg.padding_idx
          embedding := applyInitWeights s
            (wordAndPositionalEmbedding cfg.vocab_size cfg.hidden_size
              cfg.dropout)
          encoder :=
            { cls := if cfg.is_bidirectional then
                EncoderClassT.bidirectionalTansformerEncoder
              else EncoderClassT.forwardTransformerEncoder
              layer :=
                { layerClass := if cfg.norm_type == "post" then
                    LayerClass.transformerEncoderLayer
                  else LayerClass.preNormTransformerEncoderLayer
                  d_model := cfg.hidden_size
                  nhead := cfg.attention_heads
                  dim_feedforward := cfg.feedforward_size
                  dropout := cfg.dropout
                  activation := cfg.activation }
              num_layers := cfg.num_layers } } := by
  unfold mkTransformerTextualStream mkEncoderStack
  by_cases h : cfg.num_layers < 1 <;> simp [h]

/-- A valid configuration selecting the bidirectional regime. -/
def cfgBi : StreamConfig :=
  { vocab_size := 50, hidden_size := 32, feedforward_size := 64,
    attention_heads := 4, num_layers := 2, dropout := 1/10,
    norm_type := "pre", activation := "gelu",
    is_bidirectional := true, padding_idx := 0 }

/-- A valid configuration selecting the forward regime. -/
def cfgFwd : StreamConfig := { cfgBi with is_bidirectional := false }

/-- An invalid configuration: hidden width 7 is not divisible by the
head count 3, and the normalization tag "layer" is unrecognized. -/
def cfgInvalid : StreamConfig :=
  { vocab_size := 10, hidden_size := 7, feedforward_size := 4,
    attention_heads := 3, num_layers := 2, dropout := 0,
    norm_type := "layer", activation := "gelu",
    is_bidirectional := true, padding_idx := 0 }

/-- A configuration with depth 0. -/
def cfgDepth0 : StreamConfig := { cfgBi with num_layers := 0 }

/-- A small configuration with a nonzero configured padding index. -/
def cfgPad3 : StreamConfig :=
  { vocab_size := 4, hidden_size := 2, feedforward_size := 4,
    attention_heads := 1, num_layers := 1, dropout := 0,
    norm_type := "pre", activation := "gelu",
    is_bidirectional := true, padding_idx := 3 }

/-- C1, counterexample: no constructor argument value makes the
assembled stack use the backward (anti-causal) regime — the boolean
`is_bidirectional` only ever selects the bidirectional or forward
encoder class, so the claimed third regime is unreachable. -/
theorem C1_counterexample :
    ¬ ∃ (s : Sampler) (cfg : StreamConfig),
      streamEncoderCls (mkTransformerTextualStream s cfg) =
        some EncoderClassT.backwardTransformerEncoder := by
  rintro ⟨s, cfg, h⟩
  rw [mk_eq] at h
  by_cases hnl : cfg.num_layers < 1
  · simp [hnl, streamEncoderCls] at h
  · by_cases hb : cfg.is_bidirectional <;>
      simp [hnl, hb, streamEncoderCls] at h

/-- C1, amended: the constructor exposes exactly two directional
regimes, selected by the boolean `is_bidirectional` — `true` yields the
bidirectional encoder class and `false` the forward one; the backward
encoder class, though imported, is never selected. -/
theorem C1_two_regimes (s : Sampler) (cfg : StreamConfig)
    (hnl : 1 ≤ cfg.num_layers) :
    streamEncoderCls (mkTransformerTextualStream s cfg) =
      some (if cfg.is_bidirectional then
        EncoderClassT.bidirectionalTansformerEncoder
      else EncoderClassT.forwardTransformerEncoder) := by
  rw [mk_eq, if_neg (by omega)]
  rfl

theorem C1_two_regimes_witness :
    streamEncoderCls (mkTransformerTextualStream sOne cfgBi) =
      some EncoderClassT.bidirectionalTansformerEncoder ∧
    streamEncoderCls (mkTransformerTextualStream sOne cfgFwd) =
      some EncoderClassT.forwardTransformerEncoder := by
  constructor
  · have h := C1_two_regimes sOne cfgBi (by decide)
    simpa [cfgBi] using h
  · have h := C1_two_regimes sOne cfgFwd (by decide)
    simpa [cfgFwd, cfgBi] using h

/-- C2, counterexample: a configuration that is invalid in two of the
claimed senses — hidden width not divisible by head count, and an
unrecognized normalization tag — is accepted: construction succeeds and
raises nothing. -/
theorem C2_counterexample :
    isOkE (mkTransformerTextualStream sOne cfgInvalid) = true ∧
    cfgInvalid.hidden_size % cfgInvalid.attention_heads ≠ 0 ∧
    cfgInvalid.norm_type ≠ "pre" ∧ cfgInvalid.norm_type ≠ "post" := by
  refine ⟨by decide, by decide, by decide, by decide⟩

/-- C2, amended: the only configuration check at construction is the
depth check of the (spec-modelled) encoder assembler — depth 0 fails
with a ConfigurationError, while any configuration of depth at least 1
is accepted, an unrecognized normalization tag silently selecting the
pre-norm layer class; the constructor itself validates neither the
divisibility of hidden width by head count nor the activation tag, and
directionality is a boolean so no unrecognized directionality tag can be
supplied. -/
theorem C2_no_constructor_validation (s : Sampler) (cfg : StreamConfig) :
    (cfg.num_layers = 0 →
      mkTransformerTextualStream s cfg = .error .configurationError) ∧
    (1 ≤ cfg.num_layers →
      isOkE (mkTransformerTextualStream s cfg) = true) ∧
    (1 ≤ cfg.num_layers →
      streamLayerCls (mkTransformerTextualStream s cfg) =
        some (if cfg.norm_type == "post" then
          LayerClass.transformerEncoderLayer
        else LayerClass.preNormTransformerEncoderLayer)) := by
  refine ⟨?_, ?_, ?_⟩
  · intro h
    rw [mk_eq, if_pos (by omega)]
  · intro h
    rw [mk_eq, if_neg (by omega)]
    rfl
  · intro h
    rw [mk_eq, if_neg (by omega)]
    rfl

theorem C2_no_constructor_validation_witness :
    mkTransformerTextualStream sOne cfgDepth0 =
      .error .configurationError ∧
    isOkE (mkTransformerTextualStream sOne cfgInvalid) = true :=
  ⟨(C2_no_constructor_validation sOne cfgDepth0).1 (by decide),
   (C2_no_constructor_validation sOne cfgInvalid).2.1 (by decide)⟩

/-- C3: evaluating `init_weights` at a concrete `nn.Linear` module with
bias `[3, 4]` — the weight is overwritten by draws, but the bias is left
at `[3, 4]`, not set to zero as the claim (and the function's own
docstring) states. -/
theorem C3_linear_bias_untouched :
    init_weights sOne (TorchModule.linear [[0], [0]] [3, 4]) =
      TorchModule.linear [[1], [1]] [3, 4] ∧
    ([3, 4] : List ℚ) ≠ List.replicate 2 0 := by
  refine ⟨by decide, by decide⟩

/-- C4, counterexample: with configured padding index 3 and the
all-ones draw outcome, the initialized embedding table's row 3 is
`[1, 1]`, not the zero vector — the row actually zeroed is row 0, the
provider's own default padding index, because the constructor never
forwards the configured index. -/
theorem C4_counterexample :
    cfgPad3.padding_idx = 3 ∧
    (streamWordsWeight (mkTransformerTextualStream sOne cfgPad3)).getD 3 []
      = [1, 1] ∧
    ([1, 1] : List ℚ) ≠ List.replicate 2 0 ∧
    (streamWordsWeight (mkTransformerTextualStream sOne cfgPad3)).getD 0 []
      = List.replicate 2 0 := by
  refine ⟨by decide, by decide, by decide, by decide⟩

/-- C4, amended: immediately after the initialization policy runs, the
embedding row forced to zero is the one at the provider's own padding
index (its default, 0) — for every configuration and every draw outcome
— since the constructor does not forward the configured padding index;
this coincides with the configured index only when that index is 0. -/
theorem C4_provider_default_row_zeroed (s : Sampler) (cfg : StreamConfig)
    (hnl : 1 ≤ cfg.num_layers) (hv : 1 ≤ cfg.vocab_size) :
    (streamWordsWeight (mkTransformerTextualStream s cfg)).getD
        wapeDefaultPaddingIdx [] =
      List.replicate cfg.hidden_size 0 := by
  rw [mk_eq, if_neg (by omega)]
  obtain ⟨n, hn⟩ : ∃ n, cfg.vocab_size = n + 1 :=
    ⟨cfg.vocab_size - 1, by omega⟩
  simp only [streamWordsWeight, applyInitWeights,
    wordAndPositionalEmbedding, init_weights, wapeDefaultPaddingIdx]
  rw [hn, List.replicate_succ]
  simp only [normalFill, fillRows, zeroRow, List.getD_cons_zero,
    List.set_cons_zero]
  rw [map_const_zero, length_fillRow, List.length_replicate]

theorem C4_provider_default_row_zeroed_witness :
    (streamWordsWeight (mkTransformerTextualStream sOne cfgPad3)).getD
        wapeDefaultPaddingIdx [] =
      List.replicate cfgPad3.hidden_size 0 :=
  C4_provider_default_row_zeroed sOne cfgPad3 (by decide) (by decide)

/-- C5, counterexample: the provider the Controller builds keeps its own
default padding index 0 even when the configured padding index is 3 —
the constructor call passes only (vocabulary size, hidden width,
dropout) and never the configured padding index. -/
theorem C5_counterexample :
    Option.map (fun w => w.padding_idx)
        (streamEmbedding (mkTransformerTextualStream sOne cfgPad3)) =
      some 0 ∧
    cfgPad3.padding_idx = 3 ∧ (0 : Nat) ≠ 3 := by
  refine ⟨by decide, by decide, by decide⟩

/-- C5, amended: the Controller builds exactly one Embedding Provider
instance, sized to (vocabulary size, hidden width) as claimed, but it
does not pass the configured padding index when building it: the
provider keeps its own default padding index, which agrees with the
configured one exactly when the configured index is 0. -/
theorem C5_embedding_sized_but_padding_not_passed (s : Sampler)
    (cfg : StreamConfig) (hnl : 1 ≤ cfg.num_layers) :
    ∃ w, streamEmbedding (mkTransformerTextualStream s cfg) = some w ∧
      w.vocab_size = cfg.vocab_size ∧
      w.hidden_size = cfg.hidden_size ∧
      w.padding_idx = wapeDefaultPaddingIdx ∧
      (w.padding_idx = cfg.padding_idx ↔ cfg.padding_idx = 0) := by
  rw [mk_eq, if_neg (by omega)]
  refine ⟨_, rfl, rfl, rfl, rfl, ?_⟩
  simp [applyInitWeights, wordAndPositionalEmbedding,
    wapeDefaultPaddingIdx, eq_comm]

theorem C5_embedding_sized_but_padding_not_passed_witness :
    Option.map (fun w => (w.vocab_size, w.hidden_size, w.padding_idx))
        (streamEmbedding (mkTransformerTextualStream sOne cfgPad3)) =
      some (4, 2, 0) := by
  obtain ⟨w, hw, h1, h2, h3, _⟩ :=
    C5_embedding_sized_but_padding_not_passed sOne cfgPad3 (by decide)
  rw [hw]
  simp [h1, h2, h3, cfgPad3, wapeDefaultPaddingIdx]

/-- A successful `embedBatch` has one row per token sequence; each row
is as long as some token sequence of the batch and draws its vectors
from the table. -/
lemma embedBatch_ok_shape_mem (table : List (List ℚ)) :
    ∀ (tokens : List (List Nat)) (e : Tensor3),
      embedBatch table tokens = .ok e →
      e.length = tokens.length ∧
        ∀ m ∈ e, (∃ r ∈ tokens, m.length = r.length) ∧
          ∀ v ∈ m, v ∈ table := by
  intro tokens
  induction tokens with
  | nil => intro e he; cases he; exact ⟨rfl, by simp⟩
  | cons r rs ih =>
    intro e he
    simp only [embedBatch] at he
    cases hs : embedSeq table r with
    | error err => rw [hs] at he; cases he
    | ok m =>
      rw [hs] at he
      cases hb : embedBatch table rs with
      | error err => rw [hb] at he; cases he
      | ok ms =>
        rw [hb] at he
        cases he
        obtain ⟨hm, hmem⟩ := embedSeq_ok_shape table r m hs
        obtain ⟨hlen, hrest⟩ := ih ms hb
        refine ⟨by simp [hlen], ?_⟩
        intro m' hm'
        rcases List.mem_cons.mp hm' with rfl | h
        · exact ⟨⟨r, List.mem_cons_self _ _, hm⟩, hmem⟩
        · obtain ⟨⟨r', hr', hl'⟩, hv'⟩ := hrest m' h
          exact ⟨⟨r', List.mem_cons_of_mem _ hr', hl'⟩, hv'⟩

/-- C6: for every nondegenerate rectangular token batch of shape
(batch, length) with in-range ids, and every shape-preserving encoder
stack, `forward` succeeds and its output has shape
(batch, length, hidden width) exactly — the sequence-major transpose
before the encoder is paired with the inverse transpose after it, so the
external layout is batch-major with the step-2 embedding shape. -/
theorem C6_encode_output_shape (table : List (List ℚ))
    (enc : Tensor3 → List (List Bool) → Tensor3) (p B L H : Nat)
    (tokens : List (List Nat))
    (hB : tokens.length = B) (hBpos : 0 < B)
    (hL : ∀ r ∈ tokens, r.length = L) (hLpos : 0 < L)
    (htab : ∀ r ∈ table, r.length = H)
    (hids : ∀ r ∈ tokens, ∀ id ∈ r, id < table.length)
    (henc : ∀ x mask, hasShape3 x L B H → hasShape3 (enc x mask) L B H) :
    ∃ out, forward (embedBatch table) enc p tokens = .ok out ∧
      hasShape3 out B L H := by
  obtain ⟨e, he⟩ := embedBatch_ok_of_in_range table tokens hids
  obtain ⟨helen, hmem⟩ := embedBatch_ok_shape_mem table tokens e he
  have heshape : hasShape3 e B L H := by
    unfold hasShape3
    refine ⟨helen.trans hB, ?_⟩
    intro m hm
    obtain ⟨⟨r, hr, hlen⟩, hv⟩ := hmem m hm
    exact ⟨hlen.trans (hL r hr), fun v hvm => htab v (hv v hvm)⟩
  have h1 := transpose2_shape e B L heshape.1 hBpos
    (fun r hr => (heshape.2 r hr).1)
  have hseq : hasShape3 (transpose2 e) L B H := by
    unfold hasShape3
    refine ⟨h1.1, ?_⟩
    intro m hm
    refine ⟨h1.2.1 m hm, ?_⟩
    intro v hv
    obtain ⟨row, hrow, hvrow⟩ := h1.2.2 m hm v hv
    exact (heshape.2 row hrow).2 v hvrow
  have hx := henc (transpose2 e) (maskOf p tokens) hseq
  have h2 := transpose2_shape (enc (transpose2 e) (maskOf p tokens)) L B
    hx.1 hLpos (fun r hr => (hx.2 r hr).1)
  refine ⟨transpose2 (enc (transpose2 e) (maskOf p tokens)), ?_, ?_⟩
  · simp [forward, he]
  · unfold hasShape3
    refine ⟨h2.1, ?_⟩
    intro m hm
    refine ⟨h2.2.1 m hm, ?_⟩
    intro v hv
    obtain ⟨row, hrow, hvrow⟩ := h2.2.2 m hm v hv
    exact (hx.2 row hrow).2 v hvrow

theorem C6_encode_output_shape_witness :
    ∃ out, forward (embedBatch [[1, 2]]) encId 0 [[0]] = .ok out ∧
      hasShape3 out 1 1 2 :=
  C6_encode_output_shape [[1, 2]] encId 0 1 1 2 [[0]] rfl (by decide)
    (by decide) (by decide) (by decide) (by decide)
    (fun x mask h => h)

/-- C7: the padding mask is derived fresh on each call as the
elementwise equality with the padding index — it has shape
(batch, length) and its (i, j) entry is `token i j == padding index` —
and exactly that mask is the `src_key_padding_mask` argument handed to
the encoder stack's invocation. -/
theorem C7_mask_fresh_and_passed (p : Nat) (tokens : List (List Nat))
    (B L : Nat) (hB : tokens.length = B)
    (hL : ∀ r ∈ tokens, r.length = L) :
    (maskOf p tokens).length = B ∧
    (∀ r ∈ maskOf p tokens, r.length = L) ∧
    (∀ i j, ((maskOf p tokens).getD i []).getD j false =
      ((tokens.getD i []).getD j (p + 1) == p)) ∧
    (∀ (embed : List (List Nat) → Except StreamError Tensor3)
        (enc : Tensor3 → List (List Bool) → Tensor3) (e : Tensor3),
      embed tokens = .ok e →
      forward embed enc p tokens =
        .ok (transpose2 (enc (transpose2 e) (maskOf p tokens)))) := by
  refine ⟨?_, ?_, ?_, ?_⟩
  · simpa [maskOf] using hB
  · intro r hr
    simp only [maskOf, List.mem_map] at hr
    obtain ⟨row, hrow, rfl⟩ := hr
    simpa using hL row hrow
  · intro i j
    have h1 := getD_map_eq (fun row => row.map (fun t => t == p))
      ([] : List Nat) tokens i
    simp only [List.map_nil] at h1
    have h2 := getD_map_eq (fun t => t == p) (p + 1) (tokens.getD i []) j
    have h3 : ((p + 1) == p) = false := by simp
    rw [h3] at h2
    simp only [maskOf]
    rw [h1, h2]
  · intro embed enc e he
    simp [forward, he]

theorem C7_mask_fresh_and_passed_witness :
    forward (embedBatch [[3], [4]]) encId 0 [[1, 0]] =
      .ok (transpose2 (encId (transpose2 [[[4], [3]]])
        (maskOf 0 [[1, 0]]))) :=
  (C7_mask_fresh_and_passed 0 [[1, 0]] 1 2 rfl (by decide)).2.2.2
    (embedBatch [[3], [4]]) encId [[[4], [3]]] rfl

/-- C8, counterexample: on a batch containing the out-of-range token id
7 with a two-row table, `forward` surfaces the external provider's index
failure, not a ShapeError of its own — the source performs no input
validation. -/
theorem C8_counterexample :
    forward (embedBatch [[1, 2]]) encId 0 [[0, 7]] =
      .error .providerIndexError ∧
    StreamError.providerIndexError ≠ StreamError.shapeError := by
  refine ⟨rfl, by decide⟩

/-- C8, amended: `encode` itself raises no ShapeError on any input —
the source body contains no validation — and a token id outside
[0, vocabulary size) makes the call fail with the external embedding
provider's own index error, propagated immediately with no partial
result. -/
theorem C8_no_shape_error (table : List (List ℚ))
    (enc : Tensor3 → List (List Bool) → Tensor3) (p : Nat)
    (tokens : List (List Nat)) :
    (forward (embedBatch table) enc p tokens ≠ .error .shapeError) ∧
    ((∃ r ∈ tokens, ∃ id ∈ r, table.length ≤ id) →
      forward (embedBatch table) enc p tokens =
        .error .providerIndexError) := by
  constructor
  · intro h
    simp only [forward] at h
    cases hb : embedBatch table tokens with
    | error e =>
      rw [hb] at h
      have := embedBatch_error_eq table tokens e hb
      rw [this] at h
      simp at h
    | ok e =>
      rw [hb] at h
      simp at h
  · intro hbad
    simp [forward, embedBatch_error_of_out_of_range table tokens hbad]

theorem C8_no_shape_error_witness :
    forward (embedBatch [[1, 2]]) encId 0 [[9]] =
      .error .providerIndexError :=
  (C8_no_shape_error [[1, 2]] encId 0 [[9]]).2
    ⟨[9], by simp, 9, by simp, by simp⟩

/-- C9: `forward` does not mutate the caller's token batch — every
torch operation the source applies to it is out-of-place — so the
buffer after the call is the buffer passed in, and the returned value is
a pure function of it. -/
theorem C9_input_not_mutated
    (embed : List (List Nat) → Except StreamError Tensor3)
    (enc : Tensor3 → List (List Bool) → Tensor3) (p : Nat)
    (tokens : List (List Nat)) :
    (forwardTracked embed enc p tokens).2 = tokens ∧
    (forwardTracked embed enc p tokens).1 = forward embed enc p tokens :=
  ⟨rfl, rfl⟩

/-- C10: the weight-initialization visitor leaves every module outside
the three recognized categories exactly unchanged — in particular layer
normalization modules, dropout modules, and any other unrecognized
module kind fall through the `if/elif` chain untouched, for every draw
outcome. -/
theorem C10_unrecognized_modules_unchanged (s : Sampler) :
    (∀ w b : List ℚ, init_weights s (TorchModule.layerNorm w b) =
      TorchModule.layerNorm w b) ∧
    (init_weights s TorchModule.dropout = TorchModule.dropout) ∧
    (∀ ps, init_weights s (TorchModule.other ps) = TorchModule.other ps) :=
  ⟨fun _ _ => rfl, rfl, fun _ => rfl⟩
